import Mathlib

/-!
Verification development for the storage reorganization and context
propagation engine of a Strapi-based CMS.

The JavaScript sources are shallowly embedded: strings are Lean `String`s
manipulated through structurally recursive functions on `List Char`
(mirroring the regex chains of the source), the S3 object store is a list
of keys together with injectable failure oracles for the copy / delete /
head calls, and each `async` function that talks to the store is a state
passing function returning `Except S3Error`.
-/

namespace StrapiRepo

/-- JS regex `\s` over the ASCII range (space, tab, LF, CR, VT, FF),
used by `trim`, by the `[^a-z0-9\s\-_.]` character class and by the
`\s+` replacement in the sanitizers. -/
def jsSpace (c : Char) : Bool :=
  c = ' ' || c = '\t' || c = '\n' || c = '\r' || c = '\x0b' || c = '\x0c'

/-- `pat` is a prefix of the second list. -/
def listStartsWith : List Char → List Char → Bool
  | [], _ => true
  | _ :: _, [] => false
  | p :: ps, c :: cs => p = c && listStartsWith ps cs

/-- Substring containment, JS `String.prototype.includes`. -/
def containsSub (pat : List Char) : List Char → Bool
  | [] => listStartsWith pat []
  | c :: cs => listStartsWith pat (c :: cs) || containsSub pat cs

/-- `s.includes(pat)` on strings. -/
def strContains (s pat : String) : Bool := containsSub pat.data s.data

/-- JS `String.prototype.split(sep)` with a single-character separator. -/
def splitOnChar (sep : Char) : List Char → List (List Char)
  | [] => [[]]
  | c :: rest =>
    let r := splitOnChar sep rest
    if c = sep then [] :: r
    else match r with
      | [] => [[c]]
      | h :: t => (c :: h) :: t

/-- JS `String.prototype.trim` (restricted to the ASCII whitespace that
`jsSpace` models). -/
def jsTrim (l : List Char) : List Char :=
  ((l.dropWhile jsSpace).reverse.dropWhile jsSpace).reverse

/-- Collapse every maximal run of characters satisfying `p` into the single
character `y`; models `replace(/X+/g, 'y')` for a character class `X`. -/
def collapseRuns (p : Char → Bool) (y : Char) : List Char → List Char
  | [] => []
  | [c] => if p c then [y] else [c]
  | c :: d :: rest =>
    if p c && p d then collapseRuns p y (d :: rest)
    else (if p c then y else c) :: collapseRuns p y (d :: rest)

/-- Remove one leading underscore, models the `^_` half of
`replace(/^_|_$/g, '')`. -/
def dropLeadUnderscore (l : List Char) : List Char :=
  match l with
  | c :: rest => if c = '_' then rest else c :: rest
  | [] => []

/-- `replace(/^_|_$/g, '')`: one underscore is removed at each end. -/
def stripEdgeUnderscores (l : List Char) : List Char :=
  (dropLeadUnderscore (dropLeadUnderscore l).reverse).reverse

/-- JS `x || d` for a nullable string `x` (both `null` and `""` are falsy). -/
def jsOr (x : Option String) (d : String) : String :=
  match x with
  | none => d
  | some s => if s = "" then d else s

/-- JS `x || d` for a plain string (only `""` is falsy). -/
def jsOrS (x d : String) : String := if x = "" then d else x

/-- Character class `[a-z0-9\s\-_.]` of the lowercase sanitizers: the
characters kept by `replace(/[^a-z0-9\s\-_.]/g, '')`. -/
def keepLowerChar (c : Char) : Bool :=
  ('a' ≤ c && c ≤ 'z') || ('0' ≤ c && c ≤ '9') || jsSpace c ||
    c = '-' || c = '_' || c = '.'

/-- Character class `[a-zA-Z0-9_-]` of the lifecycles sanitizer. -/
def keepWideChar (c : Char) : Bool :=
  ('a' ≤ c && c ≤ 'z') || ('A' ≤ c && c ≤ 'Z') || ('0' ≤ c && c ≤ '9') ||
    c = '_' || c = '-'

/-- Shared lowercase sanitizing chain
`trim → toLowerCase → strip [^a-z0-9\s\-_.] → \s+→'-' → -+→'-'`
of `src/api/lesson/utils/reorganize-files.js`, the aws-s3 provider and the
batch script. -/
def lowerChain (s : String) : String :=
  ⟨collapseRuns (· = '-') '-'
    (collapseRuns jsSpace '-'
      (((jsTrim s.data).map Char.toLower).filter keepLowerChar))⟩

namespace LessonUtils

/-- `sanitizeName` of `src/api/lesson/utils/reorganize-files.js` (lines
8-17): falsy input gives `"unknown"`; otherwise the lowercase chain with
NO final fallback, so an all-disallowed input can give `""`. -/
def sanitizeName (name : Option String) : String :=
  match name with
  | none => "unknown"
  | some s => if s = "" then "unknown" else lowerChain s

end LessonUtils

namespace Provider

/-- `sanitize` of `src/extensions/upload/providers/aws-s3/index.js` (lines
17-26): falsy input gives `""`; otherwise the lowercase chain. -/
def sanitize (name : Option String) : String :=
  match name with
  | none => ""
  | some s => if s = "" then "" else lowerChain s

end Provider

namespace Script

/-- `sanitizeName` of `scripts/reorganize-files.js` (lines 476-487): the
lowercase chain followed by `replace(/^_|_$/g, '')` and the `|| 'file'`
fallback; falsy input gives `"unknown"`. -/
def sanitizeName (name : Option String) : String :=
  match name with
  | none => "unknown"
  | some s =>
    if s = "" then "unknown"
    else
      let r : String := ⟨stripEdgeUnderscores (lowerChain s).data⟩
      jsOrS r "file"

end Script

namespace Lifecycles

/-- `sanitizeName` of
`src/extensions/upload/content-types/file/lifecycles.js` (lines 318-329):
`trim → \s+→'_' → strip [^a-zA-Z0-9_-] → _+→'_' → ^_|_$ → || 'file'`.
It does not lowercase and it maps whitespace to underscores. -/
def sanitizeName (name : String) : String :=
  jsOrS
    ⟨stripEdgeUnderscores
      (collapseRuns (· = '_') '_'
        ((collapseRuns jsSpace '_' (jsTrim name.data)).filter keepWideChar))⟩
    "file"

end Lifecycles

/-- `fileName.match(/\.[^.]+$/)?.[0] || ''`: the final `.xyz` extension
(including the dot) when the name ends in a dot followed by at least one
non-dot character, otherwise `""`. -/
def lastExtMatch (l : List Char) : List Char :=
  let rev := l.reverse
  let tail := rev.takeWhile (· ≠ '.')
  if tail.length = 0 then []
  else if tail.length = rev.length then []
  else '.' :: tail.reverse

/-- `fileName?.match(/\.[^.]+$/)?.[0] || ''` with optional chaining. -/
def extFromName (name : Option String) : String :=
  match name with
  | none => ""
  | some n => ⟨lastExtMatch n.data⟩

/-- The characters after the first occurrence of `pat`, or `none` when
`pat` does not occur; models the position search of a JS regex match. -/
def afterFirstSub (pat : List Char) : List Char → Option (List Char)
  | [] => if listStartsWith pat [] then some [] else none
  | c :: cs =>
    if listStartsWith pat (c :: cs) then some ((c :: cs).drop pat.length)
    else afterFirstSub pat cs

/-- Numeric value of a hexadecimal digit (code points 48-57, 97-102 and
65-70 cover `0-9`, `a-f` and `A-F`). -/
def hexVal (c : Char) : Option Nat :=
  let n := c.toNat
  if 48 ≤ n ∧ n ≤ 57 then some (n - 48)
  else if 97 ≤ n ∧ n ≤ 102 then some (n - 87)
  else if 65 ≤ n ∧ n ≤ 70 then some (n - 55)
  else none

/-- `decodeURIComponent`, restricted to single-byte `%XX` escapes; a `%`
not followed by two hex digits is kept verbatim (the JS original would
throw a `URIError` there; the embedded pipeline never produces one). -/
def decodePercent : List Char → List Char
  | '%' :: a :: b :: rest =>
    (match hexVal a, hexVal b with
     | some x, some y => Char.ofNat (16 * x + y) :: decodePercent rest
     | _, _ => '%' :: decodePercent (a :: b :: rest))
  | c :: rest => c :: decodePercent rest
  | [] => []

/-- `s.replace(pat, '')` with a plain-string pattern: JS removes only the
first occurrence. -/
def removeFirstSub (pat : List Char) : List Char → List Char
  | [] => []
  | c :: cs =>
    if listStartsWith pat (c :: cs) then (c :: cs).drop pat.length
    else c :: removeFirstSub pat cs

/-- `s.replace(/\.[^.]*$/, '')`: drop everything from the last dot on
(the matched tail may be empty); no dot means no change. -/
def dropLastDotSegment (l : List Char) : List Char :=
  let rev := l.reverse
  let tail := rev.takeWhile (· ≠ '.')
  if tail.length = rev.length then l
  else (rev.drop (tail.length + 1)).reverse

/-! ## Object store model

The S3 bucket is modeled as the list of keys it currently holds (object
bodies and stored content types are not observable by any claim), plus
three oracles that inject request failures for `HeadObject`,
`CopyObject` and `DeleteObject`.  A `HeadObject` on an absent key fails
with the `NotFound`/404 error the AWS SDK raises. -/

structure S3Error where
  name : String
  httpStatusCode : Nat
deriving DecidableEq, Repr

structure S3State where
  objs : List String
  headFail : String → Option S3Error
  copyFail : String → String → Option S3Error
  deleteFail : String → Option S3Error

/-- A store holding `objs` whose requests all succeed. -/
def mkStore (objs : List String) : S3State :=
  ⟨objs, fun _ => none, fun _ _ => none, fun _ => none⟩

def addKey (objs : List String) (k : String) : List String :=
  if objs.contains k then objs else objs ++ [k]

def headObject (s : S3State) (k : String) : Except S3Error Unit :=
  match s.headFail k with
  | some e => .error e
  | none => if s.objs.contains k then .ok () else .error ⟨"NotFound", 404⟩

/-- The `try/catch` body shared by both `fileExistsInS3` functions
(`scripts/reorganize-files.js` lines 492-505 and
`src/api/lesson/utils/reorganize-files.js` lines 241-254): a successful
head means `true`; an error named `NotFound` or carrying HTTP status 404
means `false`; any other error is rethrown. -/
def fileExistsFromHead : Except S3Error Unit → Except S3Error Bool
  | .ok _ => .ok true
  | .error e =>
    if e.name = "NotFound" ∨ e.httpStatusCode = 404 then .ok false else .error e

def fileExistsInS3 (s : S3State) (k : String) : Except S3Error Bool :=
  fileExistsFromHead (headObject s k)

/-- `CopyObject` (content type is passed with `MetadataDirective:
'REPLACE'` but object metadata is not observable in this model). Copying
a missing source fails. -/
def copyObject (s : S3State) (src dst _contentType : String) :
    S3State × Except S3Error Unit :=
  match s.copyFail src dst with
  | some e => (s, .error e)
  | none =>
    if s.objs.contains src then ({ s with objs := addKey s.objs dst }, .ok ())
    else (s, .error ⟨"NoSuchKey", 404⟩)

/-- `DeleteObject`; deleting an absent key succeeds, as in S3. -/
def deleteObject (s : S3State) (k : String) : S3State × Except S3Error Unit :=
  match s.deleteFail k with
  | some e => (s, .error e)
  | none => ({ s with objs := s.objs.filter (· ≠ k) }, .ok ())

/-- Key extraction from a stored URL:
`file_url.match(/\.amazonaws\.com\/(.+)$/)` followed by
`decodeURIComponent` on the capture (shared by the script and the lesson
utils). -/
def urlKeyOf (url : Option String) : Option String :=
  match url with
  | none => none
  | some u =>
    if u = "" then none
    else
      match afterFirstSub ".amazonaws.com/".data u.data with
      | some rest => if rest.length = 0 then none else some ⟨decodePercent rest⟩
      | none => none

/-! ## Batch reconciler (`scripts/reorganize-files.js`)

One `FileRow` is one row of the per-lesson file query joined with the
lesson lineage titles of the enclosing loop; text columns are modeled as
`String` (the rows fed to the script hold non-NULL text) and the nullable
`url` / parsed `provider_metadata.key` as `Option String`. -/

namespace Script

structure Config where
  bucket : String
  region : String
deriving DecidableEq, Repr

structure FileRow where
  id : Nat
  name : Option String
  url : Option String
  ext : String
  mime : String
  hash : String
  providerKey : Option String
  courseTitle : Option String
  moduleTitle : Option String
  lessonTitle : Option String
deriving DecidableEq, Repr

structure Counters where
  processed : Nat
  moved : Nat
  skipped : Nat
  errors : Nat
deriving DecidableEq, Repr

inductive Outcome
  | skippedEqual
  | moved
  | skippedNotMoved
  | errored
deriving DecidableEq, Repr

/-- `findFileInS3` (lines 545-604): when a hash is available, first try
the `hash + extension` key, then list the bucket looking for a key that
contains the hash.  The `ListObjectsV2` loop fetches pages of 1000 keys
and stops once `checked > 10000` after a full page, so it examines
exactly the first 11 pages, i.e. the first 11000 keys of the bucket
listing.  The surrounding `try/catch` turns any store error into `null`. -/
def findFileInS3 (s : S3State) (fileHash : String) (fileName : Option String) :
    Option String :=
  if fileHash = "" then none
  else
    let hashKey := fileHash ++ extFromName fileName
    match fileExistsInS3 s hashKey with
    | .error _ => none
    | .ok true => some hashKey
    | .ok false => (s.objs.take 11000).find? (fun k => strContains k fileHash)

/-- The sequential existence probe of `tryPathVariations`. -/
def tryVariantList (s : S3State) : List String → Except S3Error (Option String)
  | [] => .ok none
  | v :: rest =>
    match fileExistsInS3 s v with
    | .error e => .error e
    | .ok true => .ok (some v)
    | .ok false => tryVariantList s rest

def underscoresToHyphens (x : String) : String :=
  ⟨x.data.map (fun c => if c = '_' then '-' else c)⟩

def lowerStr (x : String) : String := ⟨x.data.map Char.toLower⟩

/-- `tryPathVariations` (lines 510-540): probe the original key, its
lowercase form, underscores replaced by hyphens, both combined, the bare
file name, and `hash + extension`; `filter(Boolean)` drops the `null`
entry and empty strings.  Existence checks here are not wrapped in a
`try/catch`, so a non-404 head error propagates. -/
def tryPathVariations (s : S3State) (baseKey fileHash : String) :
    Except S3Error (Option String) :=
  if baseKey = "" then .ok none
  else
    let fileName : String := ⟨(splitOnChar '/' baseKey.data).getLastD []⟩
    let variations :=
      ([some baseKey, some (lowerStr baseKey), some (underscoresToHyphens baseKey),
        some (underscoresToHyphens (lowerStr baseKey)), some fileName,
        if fileHash ≠ "" then some (fileHash ++ extFromName (some fileName)) else none
       ].filterMap id).filter (· ≠ "")
    tryVariantList s variations

/-- Current-key determination of the main loop (lines 906-945):
`provider_metadata.key` if truthy, else the key parsed from the URL,
else `hash + ext` — checked against the store and, failing that, looked
up by `findFileInS3`; when everything fails the constructed
`hash + ext` key is still used. -/
def resolveCurrentKey (s : S3State) (r : FileRow) : Except S3Error String :=
  let metaKey := match r.providerKey with
    | some k => if k = "" then none else some k
    | none => none
  match metaKey with
  | some k => .ok k
  | none =>
    match urlKeyOf r.url with
    | some k => .ok k
    | none =>
      let hashKey := r.hash ++ r.ext
      match fileExistsInS3 s hashKey with
      | .error e => .error e
      | .ok true => .ok hashKey
      | .ok false =>
        match findFileInS3 s r.hash r.name with
        | some k => .ok k
        | none => .ok hashKey

/-- `courseName/moduleName/lessonName` of the lesson loop (lines 852-854). -/
def targetFolder (r : FileRow) : String :=
  sanitizeName (some (jsOr r.courseTitle "Uncategorized")) ++ "/" ++
    sanitizeName (some (jsOr r.moduleTitle "Module")) ++ "/" ++
    sanitizeName (some (jsOr r.lessonTitle "Lesson"))

/-- File-name part of the new key (lines 949-961): reuse the name behind
the last `/` of the current key when it has one, otherwise construct
`sanitized-name + '-' + hash + ext`. -/
def fileNamePartOf (r : FileRow) (currentKey : String) : String :=
  if strContains currentKey "/" then
    ⟨(splitOnChar '/' currentKey.data).getLastD []⟩
  else
    let fileName := jsOr r.name (jsOrS r.hash "file")
    let fileExt := r.ext
    let nameWithoutExt : String :=
      ⟨dropLastDotSegment (removeFirstSub fileExt.data fileName.data)⟩
    let sanitized := sanitizeName (some nameWithoutExt)
    let uniquePart := jsOrS r.hash "file"
    sanitized ++ "-" ++ uniquePart ++ fileExt

/-- `newKey` (line 963). -/
def targetKeyGiven (r : FileRow) (currentKey : String) : String :=
  targetFolder r ++ "/" ++ fileNamePartOf r currentKey

/-- `moveFileInS3` (lines 688-729): missing source is a `false` no-op;
an existing destination deletes the source when the keys differ and
reports success; otherwise copy then delete. -/
def moveFileInS3 (s : S3State) (oldKey newKey contentType : String) :
    S3State × Except S3Error Bool :=
  match fileExistsInS3 s oldKey with
  | .error e => (s, .error e)
  | .ok false => (s, .ok false)
  | .ok true =>
    match fileExistsInS3 s newKey with
    | .error e => (s, .error e)
    | .ok true =>
      if oldKey ≠ newKey then
        match deleteObject s oldKey with
        | (s', .ok _) => (s', .ok true)
        | (s', .error e) => (s', .error e)
      else (s, .ok true)
    | .ok false =>
      match copyObject s oldKey newKey (jsOrS contentType "application/octet-stream") with
      | (s', .error e) => (s', .error e)
      | (s', .ok _) =>
        match deleteObject s' oldKey with
        | (s'', .ok _) => (s'', .ok true)
        | (s'', .error e) => (s'', .error e)

def newUrlFor (cfg : Config) (k : String) : String :=
  "https://" ++ cfg.bucket ++ ".s3." ++ cfg.region ++ ".amazonaws.com/" ++ k

/-- The `UPDATE files SET url = $1, provider_metadata = $2` applied after
a successful move (lines 1014-1021). -/
def updateRow (cfg : Config) (r : FileRow) (k : String) : FileRow :=
  { r with url := some (newUrlFor cfg k), providerKey := some k }

/-- Source-rescue block (lines 984-1002): when the resolved key is not in
the store, try the path variations, then a full search by hash. -/
def rescueKey (s : S3State) (currentKey : String) (r : FileRow) :
    Except S3Error String :=
  match tryPathVariations s currentKey r.hash with
  | .error e => .error e
  | .ok (some v) => .ok v
  | .ok none =>
    if r.hash ≠ "" then
      match findFileInS3 s r.hash r.name with
      | some k => .ok k
      | none => .ok currentKey
    else .ok currentKey

/-- One iteration of the per-file loop (lines 901-1033).  Store errors
raised outside the `try` block around the move (resolution, existence
check, path variations) propagate and abort the batch; errors inside it
are caught and counted, leaving the row untouched. -/
def processFile (cfg : Config) (dryRun : Bool) (s : S3State) (r : FileRow) :
    Except S3Error (S3State × FileRow × Outcome) :=
  match resolveCurrentKey s r with
  | .error e => .error e
  | .ok currentKey0 =>
    let newKey := targetKeyGiven r currentKey0
    if currentKey0 = newKey then .ok (s, r, .skippedEqual)
    else
      match fileExistsInS3 s currentKey0 with
      | .error e => .error e
      | .ok srcEx =>
        match (if srcEx then .ok currentKey0 else rescueKey s currentKey0 r :
            Except S3Error String) with
        | .error e => .error e
        | .ok currentKey =>
          if dryRun then .ok (s, r, .moved)
          else
            match moveFileInS3 s currentKey newKey r.mime with
            | (s', .ok true) => .ok (s', updateRow cfg r newKey, .moved)
            | (s', .ok false) => .ok (s', r, .skippedNotMoved)
            | (s', .error _) => .ok (s', r, .errored)

def bump (o : Outcome) (c : Counters) : Counters :=
  { processed := c.processed + 1
    moved := c.moved + (if o = .moved then 1 else 0)
    skipped := c.skipped + (if o = .skippedEqual ∨ o = .skippedNotMoved then 1 else 0)
    errors := c.errors + (if o = .errored then 1 else 0) }

/-- The relocation pass: every queried row processed in order;
a propagated store error aborts the whole batch. -/
def runPass (cfg : Config) (dryRun : Bool) (s : S3State) :
    List FileRow → Except S3Error (S3State × List FileRow × Counters)
  | [] => .ok (s, [], ⟨0, 0, 0, 0⟩)
  | r :: rest =>
    match processFile cfg dryRun s r with
    | .error e => .error e
    | .ok (s1, r1, o) =>
      match runPass cfg dryRun s1 rest with
      | .error e => .error e
      | .ok (s2, rest2, c) => .ok (s2, r1 :: rest2, bump o c)

/-- A row whose provider-metadata key is present (truthy) and already
equal to its recomputed target key; such a row is skipped as a no-op
before any store call. -/
def rowStable (r : FileRow) : Bool :=
  match r.providerKey with
  | some k => if k = "" then false else targetKeyGiven r k == k
  | none => false

structure LinkRow where
  id : Nat
  fileId : Nat
  relatedId : Nat
  relatedType : String
  field : String
deriving DecidableEq, Repr

def sameLinkKey (a b : LinkRow) : Bool :=
  a.fileId == b.fileId && a.relatedId == b.relatedId &&
    a.relatedType == b.relatedType && a.field == b.field

/-- `cleanFilesRelatedTables` (lines 609-683) on the morph table that
exists (the two legacy table names share this shape): delete rows whose
file is gone, delete lesson rows whose lesson is gone, then keep only the
lowest-id row of each `(file_id, related_id, related_type, field)` group
(`ROW_NUMBER() ... ORDER BY id` keeps `rn = 1`). -/
def cleanFilesRelatedTables (links : List LinkRow) (fileIds lessonIds : List Nat) :
    List LinkRow :=
  let l1 := links.filter (fun r => fileIds.contains r.fileId)
  let l2 := l1.filter (fun r =>
    !(r.relatedType == "api::lesson.lesson" && !lessonIds.contains r.relatedId))
  l2.filter (fun r => l2.all (fun r2 => !(sameLinkKey r2 r && Nat.blt r2.id r.id)))

structure MainResult where
  store : S3State
  rows : List FileRow
  counters : Counters
  links : List LinkRow

/-- `main` (lines 735-1072) restricted to its mutating skeleton: an
optional pre-pass table clean when `--clean` is given in execute mode
(dry run only prints), the relocation pass, and the automatic post-pass
clean when executing without `--clean` and at least one file moved
(lines 1050-1054). -/
def mainRun (cfg : Config) (dryRun cleanTables : Bool) (s : S3State)
    (rows : List FileRow) (links : List LinkRow) (fileIds lessonIds : List Nat) :
    Except S3Error MainResult :=
  let links0 :=
    if cleanTables = true ∧ dryRun = false then
      cleanFilesRelatedTables links fileIds lessonIds
    else links
  match runPass cfg dryRun s rows with
  | .error e => .error e
  | .ok (s1, rows1, c) =>
    let links1 :=
      if dryRun = false ∧ cleanTables = false ∧ 0 < c.moved then
        cleanFilesRelatedTables links0 fileIds lessonIds
      else links0
    .ok ⟨s1, rows1, c, links1⟩

end Script

/-! ## In-app reorganizer (`src/api/lesson/utils/reorganize-files.js`) -/

namespace LessonUtils

structure LFile where
  id : Nat
  name : Option String
  url : Option String
  ext : String
  mime : String
  hash : String
  providerKey : Option String
deriving DecidableEq, Repr

inductive LOutcome
  | skippedEqual
  | skippedNoSource
  | destExistsSkip
  | moved
  | errored
deriving DecidableEq, Repr

/-- `targetFolder` (lines 63-74): title fallbacks then the sanitizer. -/
def lessonTargetFolder (courseTitleMain courseTitleAlt moduleTitle lessonTitle :
    Option String) : String :=
  sanitizeName (some (jsOr courseTitleMain (jsOr courseTitleAlt "Uncategorized"))) ++ "/" ++
    sanitizeName (some (jsOr moduleTitle "Module")) ++ "/" ++
    sanitizeName (some (jsOr lessonTitle "Lesson"))

/-- Current-key determination (lines 126-150): `provider_metadata.key`
if truthy, else the key parsed from the URL, else `hash + (ext || '')`.
No store access is made here. -/
def resolveLesson (f : LFile) : String :=
  let metaKey := match f.providerKey with
    | some k => if k = "" then none else some k
    | none => none
  match metaKey with
  | some k => k
  | none =>
    match urlKeyOf f.url with
    | some k => k
    | none => f.hash ++ f.ext

/-- `moveFileInS3` (lines 269-284): unconditional copy then delete. -/
def moveFileInS3 (s : S3State) (oldKey newKey contentType : String) :
    S3State × Except S3Error Unit :=
  match copyObject s oldKey newKey contentType with
  | (s', .error e) => (s', .error e)
  | (s', .ok _) => deleteObject s' oldKey

/-- The database update after a successful move (lines 193-203). -/
def updateLessonRow (cfg : Script.Config) (f : LFile) (k : String) : LFile :=
  { f with url := some (Script.newUrlFor cfg k), providerKey := some k }

/-- One iteration of the per-file loop of `reorganizeLessonFiles`
(lines 121-224): skip when already in place, skip a missing source,
delete the source when the destination already exists (without touching
the database record), otherwise move and update the record; only the
move-and-update block is inside a `try/catch`. -/
def processItem (cfg : Script.Config) (s : S3State) (folder : String) (f : LFile) :
    Except S3Error (S3State × LFile × LOutcome) :=
  let currentKey := resolveLesson f
  let fileName := jsOr f.name (jsOrS f.hash "file")
  let newKey := folder ++ "/" ++ fileName ++ f.ext
  if currentKey = newKey then .ok (s, f, .skippedEqual)
  else
    match fileExistsInS3 s currentKey with
    | .error e => .error e
    | .ok false => .ok (s, f, .skippedNoSource)
    | .ok true =>
      match fileExistsInS3 s newKey with
      | .error e => .error e
      | .ok true =>
        if currentKey ≠ newKey then
          match deleteObject s currentKey with
          | (s', .ok _) => .ok (s', f, .destExistsSkip)
          | (_, .error e) => .error e
        else .ok (s, f, .destExistsSkip)
      | .ok false =>
        match moveFileInS3 s currentKey newKey (jsOrS f.mime "application/octet-stream") with
        | (s', .ok _) => .ok (s', updateLessonRow cfg f newKey, .moved)
        | (s', .error _) => .ok (s', f, .errored)

end LessonUtils

/-! ## Context channel (`src/extensions/upload/utils/upload-context.js`)

The `AsyncLocalStorage` store of one request scope is the mutable array
of `FileContext`s established for that request; `none` models a call
outside any scope (`getStore()` returning `undefined`). -/

namespace UploadContext

structure FileContext where
  path : String
  fileName : String
deriving DecidableEq, Repr

abbrev Queue := Option (List FileContext)

/-- `getNextFileContext`: `store.shift()` on the scope's array, `null`
when there is no scope or the array is empty. -/
def getNextFileContext : Queue → Option FileContext × Queue
  | none => (none, none)
  | some [] => (none, some [])
  | some (c :: rest) => (some c, some rest)

/-- `n` successive dequeue calls within one scope. -/
def dequeueN : Nat → Queue → List (Option FileContext)
  | 0, _ => []
  | n + 1, q =>
    let (r, q') := getNextFileContext q
    r :: dequeueN n q'

/-- The `AsyncLocalStorage` instance seen across concurrent requests:
each scope identifier owns an independent store, as guaranteed by
`asyncLocalStorage.run` giving every request its own store. -/
abbrev World := Nat → Queue

/-- `getNextFileContext` executed inside scope `i` of a multi-request
world: only scope `i`'s store is read and shifted. -/
def dequeueIn (w : World) (i : Nat) : Option FileContext × World :=
  match w i with
  | none => (none, w)
  | some [] => (none, w)
  | some (c :: rest) => (some c, fun j => if j = i then some rest else w j)

/-- `n` dequeues inside scope `i`: the list of returned contexts and the
final world. -/
def dequeueNIn : Nat → World → Nat → List (Option FileContext) × World
  | 0, w, _ => ([], w)
  | n + 1, w, i =>
    ((dequeueIn w i).1 :: (dequeueNIn n (dequeueIn w i).2 i).1,
      (dequeueNIn n (dequeueIn w i).2 i).2)

end UploadContext

/-! ## Storage provider naming (`src/extensions/upload/providers/aws-s3/index.js`) -/

namespace Provider

/-- `path.extname` on a bare file name (the uploaded names carry no
directory separators): the suffix from the last dot, empty for dotless
names and for a leading-dot name. -/
def extname (nameCl : List Char) : List Char :=
  let rev := nameCl.reverse
  let tail := rev.takeWhile (· ≠ '.')
  if tail.length = rev.length then []
  else if tail.length + 1 = rev.length then []
  else '.' :: tail.reverse

/-- `generateFileName` (lines 100-108): sanitized base name, a
`Date.now()` timestamp (passed in as `now`), and the original extension. -/
def generateFileName (name : String) (now : Nat) : String :=
  let ext := extname name.data
  let nameWithoutExt := name.data.take (name.data.length - ext.length)
  sanitize (some ⟨nameWithoutExt⟩) ++ "-" ++ toString now ++ ⟨ext⟩

/-- `getFolderPath` reduced to its title arithmetic (lines 70-89): the
lesson was found with a module and course, and the three sanitized
segments are joined (`title` is preferred over `course_title` here). -/
def getFolderPathFromTitles (courseTitle courseTitleAlt moduleTitle lessonTitle :
    Option String) : String :=
  sanitize (some (jsOr courseTitle (jsOr courseTitleAlt "unknown-course"))) ++ "/" ++
    sanitize (some (jsOr moduleTitle "unknown-module")) ++ "/" ++
    sanitize (some (jsOr lessonTitle "unknown-lesson"))

/-- Key choice of `upload` / `uploadStream` (lines 125-140, 175-190): a
dequeued context with a truthy path names the object
`path/fileName-hash.ext` (timestamp-based unique part when the hash is
falsy); otherwise the provider's own default naming
`folderPath/generateFileName` is used. -/
def uploadKey (fileContext : Option UploadContext.FileContext)
    (fileName0 fileHash : Option String) (now : Nat)
    (folderPath uploadName : String) : String :=
  match fileContext with
  | some fc =>
    if fc.path ≠ "" then
      let ext := jsOrS ⟨extname (jsOr fileName0 "").data⟩ ".bin"
      let uniquePart := jsOr fileHash ("file-" ++ toString now)
      fc.path ++ "/" ++ fc.fileName ++ "-" ++ uniquePart ++ ext
    else folderPath ++ "/" ++ generateFileName uploadName now
  | none => folderPath ++ "/" ++ generateFileName uploadName now

end Provider

namespace Lifecycles

/-- `newKey` of `reorganizeFileIfNeeded` in
`src/extensions/upload/content-types/file/lifecycles.js` (lines 195-205):
`courseName/moduleName/lessonTitle + file.ext`, each segment produced by
this file's case-preserving, underscore sanitizer. -/
def newKeyFor (courseTitleMain courseTitleAlt moduleTitle lessonTitle :
    Option String) (ext : String) : String :=
  sanitizeName (jsOr courseTitleMain (jsOr courseTitleAlt "Uncategorized")) ++ "/" ++
    sanitizeName (jsOr moduleTitle "Module") ++ "/" ++
    sanitizeName (jsOr lessonTitle "lesson") ++ ext

end Lifecycles

/-! ## Observation helpers and concrete instances

`S3State` carries failure oracles (functions), so results are projected
to their data components before being compared. -/

/-- Character class `[a-z0-9\-_.]` of path-safe output characters. -/
def allowedChar (c : Char) : Bool :=
  ('a' ≤ c && c ≤ 'z') || ('0' ≤ c && c ≤ '9') || c = '-' || c = '_' || c = '.'

/-- Data projection of a relocation-pass result. -/
def passObs (x : Except S3Error (S3State × List Script.FileRow × Script.Counters)) :
    Option (List String × List Script.FileRow × Script.Counters) :=
  match x with
  | .ok (s, rows, c) => some (s.objs, rows, c)
  | .error _ => none

/-- Data projection of one in-app reorganizer step. -/
def obsLesson (x : Except S3Error (S3State × LessonUtils.LFile × LessonUtils.LOutcome)) :
    Option (List String × LessonUtils.LFile × LessonUtils.LOutcome) :=
  match x with
  | .ok (s, f, o) => some (s.objs, f, o)
  | .error _ => none

def cfgEx : Script.Config := ⟨"b", "r"⟩

/-- C1 instance: record pointing at `old.pdf` while the recomputed
destination `c/m/l/a.pdf` already holds an object. -/
def fC1 : LessonUtils.LFile :=
  ⟨7, some "a", none, ".pdf", "application/pdf", "h", some "old.pdf"⟩

def sC1 : S3State := mkStore ["old.pdf", "c/m/l/a.pdf"]

/-- C2 instance: no metadata key, no URL; the resolver can only construct
`hash + ext`. -/
def rC2 : Script.FileRow :=
  ⟨3, some "doc.pdf", none, ".pdf", "application/pdf", "abc", none,
    some "c", some "m", some "l"⟩

def fC2 : LessonUtils.LFile :=
  ⟨4, some "doc.pdf", none, ".pdf", "application/pdf", "abc", none⟩

/-- C4 witness instance: the copy request for the source is rejected. -/
def sC4 : S3State :=
  { mkStore ["old.pdf"] with
    copyFail := fun src _ =>
      if src = "old.pdf" then some ⟨"InternalError", 500⟩ else none }

def rC4 : Script.FileRow :=
  ⟨5, some "a", none, ".pdf", "application/pdf", "h", some "old.pdf",
    some "c", some "m", some "l"⟩

/-- C5 counterexample, row A: its object is gone from the store, metadata
and URL are empty, and its hash `ab` is a substring of the key that row
B's relocation will create. -/
def rA : Script.FileRow :=
  ⟨1, some "a.pdf", none, ".pdf", "application/pdf", "ab", none,
    some "ca", some "ma", some "la"⟩

/-- C5 counterexample, row B: a normal relocation from `docs/x.pdf` to
`ab/m/l/x.pdf` (its course title is `ab`). -/
def rB : Script.FileRow :=
  ⟨2, some "x.pdf", none, ".pdf", "application/pdf", "zz", some "docs/x.pdf",
    some "ab", some "m", some "l"⟩

def s0Ex : S3State := mkStore ["docs/x.pdf"]

/-- Rows after the first execute run: A untouched (source unresolvable),
B relocated. -/
def rows1Ex : List Script.FileRow := [rA, Script.updateRow cfgEx rB "ab/m/l/x.pdf"]

/-- Rows after the second execute run: A has now "moved" — onto B's
object, found by the hash search. -/
def rows2Ex : List Script.FileRow :=
  [Script.updateRow cfgEx rA "ca/ma/la/x.pdf", Script.updateRow cfgEx rB "ab/m/l/x.pdf"]

/-- C5 witness instance: a row whose metadata key equals its target. -/
def rW5 : Script.FileRow :=
  ⟨8, some "a", none, ".pdf", "application/pdf", "h", some "c/m/l/a-h.pdf",
    some "c", some "m", some "l"⟩

/-- C10 witness instance: a row that relocates from `old.pdf`. -/
def rC10 : Script.FileRow :=
  ⟨6, some "a", none, ".pdf", "application/pdf", "h", some "old.pdf",
    some "c", some "m", some "l"⟩

/-- C10 witness link table: one valid row, one orphaned row (file 99
does not exist). -/
def linksW : List Script.LinkRow :=
  [⟨1, 6, 1, "api::lesson.lesson", "student_file"⟩,
   ⟨2, 99, 1, "api::lesson.lesson", "student_file"⟩]

/-- The `mainRun` result of the C10 witness instance. -/
def resW : Script.MainResult :=
  ⟨mkStore ["c/m/l/a-h.pdf"], [Script.updateRow cfgEx rC10 "c/m/l/a-h.pdf"],
    ⟨1, 1, 0, 0⟩, Script.cleanFilesRelatedTables linksW [6] [1]⟩

/-- C7 instance carrying the scenario lineage. -/
def rowC7 : Script.FileRow :=
  ⟨9, some "notes.pdf", none, ".pdf", "application/pdf", "k9", none,
    some "Intro To Robotics!", some "Module 1", some "Lesson  One"⟩

/-- C8 witness world: scope 0 holds two contexts, scope 1 holds one. -/
def wEx : UploadContext.World := fun i =>
  if i = 0 then some [⟨"p0", "f0"⟩, ⟨"p0", "f1"⟩]
  else if i = 1 then some [⟨"p1", "g0"⟩] else none

/-! ## Theorems -/

/-- C6: within one request scope, `getNextFileContext` dequeues the
established `FileContext`s strictly in enqueue order; once the queue is
exhausted — and for every call past the end, and when no scope was
established at all — it returns `null`, and with no context the provider
names the object with its own default `folderPath/generateFileName`
naming instead of erroring. -/
theorem claim_C6_fifo_and_fallback :
    (∀ (cs : List UploadContext.FileContext) (n : Nat),
      UploadContext.dequeueN n (some cs) =
        (cs.take n).map some ++ List.replicate (n - cs.length) none) ∧
    (∀ n : Nat, UploadContext.dequeueN n none = List.replicate n none) ∧
    (∀ (fileName0 fileHash : Option String) (now : Nat)
        (folderPath uploadName : String),
      Provider.uploadKey none fileName0 fileHash now folderPath uploadName =
        folderPath ++ "/" ++ Provider.generateFileName uploadName now) := by
  refine ⟨?_, ?_, ?_⟩
  · intro cs n
    induction n generalizing cs with
    | zero => simp [UploadContext.dequeueN]
    | succ n ih =>
      cases cs with
      | nil =>
        simp [UploadContext.dequeueN, UploadContext.getNextFileContext, ih,
          List.replicate_succ]
      | cons c cs' =>
        simp [UploadContext.dequeueN, UploadContext.getNextFileContext, ih,
          Nat.succ_sub_succ]
  · intro n
    induction n with
    | zero => simp [UploadContext.dequeueN]
    | succ n ih =>
      simp [UploadContext.dequeueN, UploadContext.getNextFileContext, ih,
        List.replicate_succ]
  · intro fileName0 fileHash now folderPath uploadName
    rfl

/-- C8: dequeues performed inside scope `A` only ever return contexts
that were established for scope `A`, and leave any other scope `B`'s
queue untouched. -/
theorem claim_C8_scope_isolation :
    ∀ (w : UploadContext.World) (A B n : Nat), A ≠ B →
      (∀ c, some c ∈ (UploadContext.dequeueNIn n w A).1 → c ∈ (w A).getD []) ∧
      (UploadContext.dequeueNIn n w A).2 B = w B := by
  intro w A B n hAB
  induction n generalizing w with
  | zero => exact ⟨by simp [UploadContext.dequeueNIn], rfl⟩
  | succ n ih =>
    cases hwa : w A with
    | none =>
      have hd : UploadContext.dequeueIn w A = (none, w) := by
        simp [UploadContext.dequeueIn, hwa]
      constructor
      · intro c hc
        simp only [UploadContext.dequeueNIn, hd, List.mem_cons] at hc
        rcases hc with hc | hc
        · exact absurd hc (by simp)
        · have hmem := (ih w).1 c hc
          rwa [hwa] at hmem
      · simp only [UploadContext.dequeueNIn, hd]
        exact (ih w).2
    | some l =>
      cases l with
      | nil =>
        have hd : UploadContext.dequeueIn w A = (none, w) := by
          simp [UploadContext.dequeueIn, hwa]
        constructor
        · intro c hc
          simp only [UploadContext.dequeueNIn, hd, List.mem_cons] at hc
          rcases hc with hc | hc
          · exact absurd hc (by simp)
          · have hmem := (ih w).1 c hc
            rwa [hwa] at hmem
        · simp only [UploadContext.dequeueNIn, hd]
          exact (ih w).2
      | cons c0 rest =>
        have hd : UploadContext.dequeueIn w A =
            (some c0, fun j => if j = A then some rest else w j) := by
          simp [UploadContext.dequeueIn, hwa]
        constructor
        · intro c hc
          simp only [UploadContext.dequeueNIn, hd, List.mem_cons] at hc
          rcases hc with hc | hc
          · rw [Option.some_inj] at hc
            subst hc
            simp [hwa]
          · have hmem := (ih (fun j => if j = A then some rest else w j)).1 c hc
            simp only [if_pos rfl, Option.getD_some] at hmem
            simp [hwa, List.mem_cons]
            exact Or.inr hmem
        · simp only [UploadContext.dequeueNIn, hd]
          rw [(ih (fun j => if j = A then some rest else w j)).2]
          simp [if_neg (Ne.symm hAB)]

/-- C8 witness: two dequeues in scope 0 of the concrete two-scope world
leave scope 1's queue unchanged. -/
theorem claim_C8_witness :
    (UploadContext.dequeueNIn 2 wEx 0).2 1 = wEx 1 :=
  (claim_C8_scope_isolation wEx 0 1 2 (by decide)).2

/-- C9: the shared existence check returns `false` only when the head
request failed with an error named `NotFound` or carrying HTTP status
404; any other error is rethrown unchanged, and `fileExistsInS3` is
exactly this discrimination applied to the store's head response. -/
theorem claim_C9_existence_error_discrimination :
    (∀ r : Except S3Error Unit, fileExistsFromHead r = .ok false →
      ∃ e, r = .error e ∧ (e.name = "NotFound" ∨ e.httpStatusCode = 404)) ∧
    (∀ e : S3Error, e.name ≠ "NotFound" → e.httpStatusCode ≠ 404 →
      fileExistsFromHead (.error e) = .error e) ∧
    (∀ (s : S3State) (k : String),
      fileExistsInS3 s k = fileExistsFromHead (headObject s k)) := by
  refine ⟨?_, ?_, fun _ _ => rfl⟩
  · intro r h
    cases r with
    | ok u => simp [fileExistsFromHead] at h
    | error e =>
      by_cases hc : e.name = "NotFound" ∨ e.httpStatusCode = 404
      · exact ⟨e, rfl, hc⟩
      · rw [fileExistsFromHead, if_neg hc] at h
        exact absurd h (by simp)
  · intro e h1 h2
    rw [fileExistsFromHead, if_neg]
    rintro (hc | hc)
    · exact h1 hc
    · exact h2 hc

/-- C9 witness: an access-denied head error (403) is rethrown by the
existence check rather than treated as absence. -/
theorem claim_C9_witness :
    fileExistsFromHead (.error ⟨"AccessDenied", 403⟩) =
      .error ⟨"AccessDenied", 403⟩ :=
  claim_C9_existence_error_discrimination.2.1 ⟨"AccessDenied", 403⟩
    (by decide) (by decide)

/-- C1: on a relocate whose destination `c/m/l/a.pdf` already exists, the
in-app reorganizer deletes the source `old.pdf` from the store but leaves
the catalog record untouched — `provider_metadata.key` still reads
`old.pdf` (now dangling) instead of the destination key the claim (and
the batch script's own destination-exists handling) requires. -/
theorem claim_C1_destination_exists_divergence :
    obsLesson (LessonUtils.processItem cfgEx sC1 "c/m/l" fC1) =
      some (["c/m/l/a.pdf"], fC1, .destExistsSkip) ∧
    fC1.providerKey = some "old.pdf" ∧
    (fC1.providerKey == some "c/m/l/a.pdf") = false ∧
    (["c/m/l/a.pdf"].contains "old.pdf") = false := by
  refine ⟨by decide, rfl, by decide, by decide⟩

/-- C2 counterexample: with an empty store, no metadata key and no URL,
the script's resolver returns the constructed `hash + ext` key
`abc.pdf` — a key whose object does not exist — instead of reporting
`NotFound`. -/
theorem claim_C2_counterexample :
    Script.resolveCurrentKey (mkStore []) rC2 = .ok "abc.pdf" ∧
    ((mkStore []).objs.contains "abc.pdf") = false := by
  refine ⟨rfl, by decide⟩

/-- C3 counterexample: the in-app `sanitizeName` maps the all-disallowed
input `"!!!"` to the empty string (an empty path segment), and the
provider's `sanitize` maps empty and null input to `""` rather than a
fixed fallback token. -/
theorem claim_C3_counterexample :
    LessonUtils.sanitizeName (some "!!!") = "" ∧
    Provider.sanitize (some "") = "" ∧
    Provider.sanitize none = "" := by
  refine ⟨by decide, rfl, rfl⟩

/-- C7 counterexample: the file-lifecycles hook also builds folder paths
for this lineage, but its sanitizer preserves case and turns whitespace
into underscores, so its computed key is
`Intro_To_Robotics/Module_1/Lesson_One.pdf`, which does not lie under the
claimed `intro-to-robotics/module-1/lesson-one/` folder. -/
theorem claim_C7_counterexample_lifecycles :
    Lifecycles.newKeyFor (some "Intro To Robotics!") none (some "Module 1")
        (some "Lesson  One") ".pdf" =
      "Intro_To_Robotics/Module_1/Lesson_One.pdf" ∧
    listStartsWith "intro-to-robotics/module-1/lesson-one/".data
      "Intro_To_Robotics/Module_1/Lesson_One.pdf".data = false := by
  refine ⟨by decide, by decide⟩

/-- Every character of `collapseRuns p y l` is either the replacement
`y` or a character of `l` on which `p` is false. -/
theorem collapseRuns_mem (p : Char → Bool) (y : Char) :
    ∀ (l : List Char) (c : Char), c ∈ collapseRuns p y l →
      c = y ∨ (c ∈ l ∧ p c = false)
  | [], c, h => by simp [collapseRuns] at h
  | [d], c, h => by
    by_cases hp : p d = true
    · simp only [collapseRuns, if_pos hp, List.mem_singleton] at h
      exact Or.inl h
    · simp only [collapseRuns, if_neg hp, List.mem_singleton] at h
      subst h
      exact Or.inr ⟨List.mem_singleton_self _, Bool.not_eq_true _ ▸ hp⟩
  | a :: b :: rest, c, h => by
    by_cases hab : (p a && p b) = true
    · simp only [collapseRuns, if_pos hab] at h
      rcases collapseRuns_mem p y (b :: rest) c h with h' | ⟨hm, hpc⟩
      · exact Or.inl h'
      · exact Or.inr ⟨List.mem_cons_of_mem _ hm, hpc⟩
    · simp only [collapseRuns, if_neg hab, List.mem_cons] at h
      rcases h with h' | h'
      · by_cases hpa : p a = true
        · rw [if_pos hpa] at h'
          exact Or.inl h'
        · rw [if_neg hpa] at h'
          subst h'
          exact Or.inr ⟨List.mem_cons_self _ _, Bool.not_eq_true _ ▸ hpa⟩
      · rcases collapseRuns_mem p y (b :: rest) c h' with h'' | ⟨hm, hpc⟩
        · exact Or.inl h''
        · exact Or.inr ⟨List.mem_cons_of_mem _ hm, hpc⟩

/-- Every character produced by the shared lowercase sanitizing chain is
path safe. -/
theorem lowerChain_allowed (s : String) :
    ∀ c ∈ (lowerChain s).data, allowedChar c = true := by
  intro c hc
  have hc' : c ∈ collapseRuns (· = '-') '-'
      (collapseRuns jsSpace '-'
        (((jsTrim s.data).map Char.toLower).filter keepLowerChar)) := hc
  rcases collapseRuns_mem _ _ _ _ hc' with h | ⟨h, _⟩
  · subst h; decide
  rcases collapseRuns_mem _ _ _ _ h with h2 | ⟨h2, hns⟩
  · subst h2; decide
  have hk : keepLowerChar c = true := (List.mem_filter.mp h2).2
  simp only [keepLowerChar, Bool.or_eq_true, Bool.and_eq_true,
    decide_eq_true_eq] at hk
  simp only [allowedChar, Bool.or_eq_true, Bool.and_eq_true,
    decide_eq_true_eq]
  rcases hk with ((((h3 | h3) | h3) | h3) | h3) | h3
  · exact Or.inl (Or.inl (Or.inl (Or.inl h3)))
  · exact Or.inl (Or.inl (Or.inl (Or.inr h3)))
  · rw [h3] at hns; exact absurd hns (by simp)
  · exact Or.inl (Or.inl (Or.inr h3))
  · exact Or.inl (Or.inr h3)
  · exact Or.inr h3

/-- `dropLeadUnderscore` only removes characters. -/
theorem dropLeadUnderscore_mem (l : List Char) (c : Char)
    (h : c ∈ dropLeadUnderscore l) : c ∈ l := by
  unfold dropLeadUnderscore at h
  split at h
  next d rest =>
    split at h
    · exact List.mem_cons_of_mem _ h
    · exact h
  next => exact h

/-- `stripEdgeUnderscores` only removes characters. -/
theorem stripEdgeUnderscores_mem (l : List Char) (c : Char)
    (h : c ∈ stripEdgeUnderscores l) : c ∈ l := by
  unfold stripEdgeUnderscores at h
  rw [List.mem_reverse] at h
  have h1 := dropLeadUnderscore_mem _ _ h
  rw [List.mem_reverse] at h1
  exact dropLeadUnderscore_mem _ _ h1

/-- C3 amended: the batch script's `sanitizeName` is total — nonempty
output over the path-safe alphabet `[a-z0-9-_.]` for every input,
including null, the empty string and all-disallowed strings — while the
in-app `sanitizeName` (which maps all-disallowed input to `""`) and the
provider's `sanitize` (which maps null/empty input to `""`) still only
ever emit characters from that alphabet. -/
theorem claim_C3_amended_totality :
    ∀ s : Option String,
      ((Script.sanitizeName s).data.isEmpty = false ∧
        (Script.sanitizeName s).data.all allowedChar = true) ∧
      (LessonUtils.sanitizeName s).data.all allowedChar = true ∧
      (Provider.sanitize s).data.all allowedChar = true := by
  intro s
  have hlower : ∀ t : String, (lowerChain t).data.all allowedChar = true := by
    intro t
    rw [List.all_eq_true]
    intro c hc
    exact lowerChain_allowed t c hc
  cases s with
  | none => exact ⟨⟨by decide, by decide⟩, by decide, by decide⟩
  | some str =>
    by_cases hstr : str = ""
    · subst hstr
      exact ⟨⟨by decide, by decide⟩, by decide, by decide⟩
    · refine ⟨?_, ?_, ?_⟩
      · show ((Script.sanitizeName (some str)).data.isEmpty = false ∧ _)
        have hval : Script.sanitizeName (some str) =
            jsOrS ⟨stripEdgeUnderscores (lowerChain str).data⟩ "file" := by
          simp only [Script.sanitizeName]
          rw [if_neg hstr]
        rw [hval]
        unfold jsOrS
        split
        · exact ⟨by decide, by decide⟩
        · next hne =>
          constructor
          · rcases he : stripEdgeUnderscores (lowerChain str).data with _ | ⟨d, ds⟩
            · exact absurd (by rw [he] : (⟨stripEdgeUnderscores
                (lowerChain str).data⟩ : String) = "") hne
            · rfl
          · rw [List.all_eq_true]
            intro c hc
            exact lowerChain_allowed str c (stripEdgeUnderscores_mem _ _ hc)
      · show (LessonUtils.sanitizeName (some str)).data.all allowedChar = true
        simp only [LessonUtils.sanitizeName]
        rw [if_neg hstr]
        exact hlower str
      · show (Provider.sanitize (some str)).data.all allowedChar = true
        simp only [Provider.sanitize]
        rw [if_neg hstr]
        exact hlower str

/-- C2 amended: the resolvers return metadata, URL-derived and
constructed hash keys without verifying existence (and the script falls
back to the unverified `hash + ext` key when every lookup fails), but an
item whose resolved key does not exist in the store is skipped by the
move step: the in-app reorganizer performs no copy, no delete and no
catalog update for it. -/
theorem claim_C2_amended_unverified_key_skips :
    ∀ (cfg : Script.Config) (s : S3State) (folder : String)
      (f : LessonUtils.LFile),
      (∀ k, s.headFail k = none) →
      s.objs.contains (LessonUtils.resolveLesson f) = false →
      ∃ o, LessonUtils.processItem cfg s folder f = .ok (s, f, o) ∧
        (o = LessonUtils.LOutcome.skippedEqual ∨
          o = LessonUtils.LOutcome.skippedNoSource) := by
  intro cfg s folder f hbenign hmem
  have hmem' : ¬ LessonUtils.resolveLesson f ∈ s.objs := by simpa using hmem
  have hex : fileExistsInS3 s (LessonUtils.resolveLesson f) = .ok false := by
    simp [fileExistsInS3, headObject, hbenign, hmem', fileExistsFromHead]
  simp only [LessonUtils.processItem]
  by_cases heq : LessonUtils.resolveLesson f =
      folder ++ "/" ++ jsOr f.name (jsOrS f.hash "file") ++ f.ext
  · rw [if_pos heq]
    exact ⟨_, rfl, Or.inl rfl⟩
  · rw [if_neg heq, hex]
    exact ⟨_, rfl, Or.inr rfl⟩

/-- C2 amended witness: the concrete unresolvable item (empty store,
hash `abc`) is skipped without any mutation. -/
theorem claim_C2_witness :
    ∃ o, LessonUtils.processItem cfgEx (mkStore []) "c/m/l" fC2 =
        .ok (mkStore [], fC2, o) ∧
      (o = LessonUtils.LOutcome.skippedEqual ∨
        o = LessonUtils.LOutcome.skippedNoSource) :=
  claim_C2_amended_unverified_key_skips cfgEx (mkStore []) "c/m/l" fC2
    (fun _ => rfl) (by decide)

/-- C4: in execute mode, whenever an item of either relocation
implementation ends in any outcome other than `moved` — in particular
when the copy or delete call was rejected (`errored`) — the catalog
record (`url` and `provider_metadata`) is returned unchanged; the record
is rewritten only in the `moved` outcome, i.e. only after `moveFileInS3`
reported a confirmed relocate. -/
theorem claim_C4_catalog_untouched_on_failure :
    (∀ (cfg : Script.Config) (s : S3State) (r : Script.FileRow) s' r' o,
      Script.processFile cfg false s r = .ok (s', r', o) →
      (o ≠ Script.Outcome.moved → r' = r) ∧
      (o = Script.Outcome.errored → r' = r)) ∧
    (∀ (cfg : Script.Config) (s : S3State) (folder : String)
        (f : LessonUtils.LFile) s' f' o,
      LessonUtils.processItem cfg s folder f = .ok (s', f', o) →
      (o ≠ LessonUtils.LOutcome.moved → f' = f) ∧
      (o = LessonUtils.LOutcome.errored → f' = f)) := by
  constructor
  · intro cfg s r s' r' o h
    simp only [Script.processFile] at h
    repeat' split at h
    all_goals
      first
      | exact Except.noConfusion h
      | (injection h with h
         injection h with h1 h
         injection h with h2 h3
         subst h1
         subst h2
         subst h3
         first
         | exact ⟨fun _ => rfl, fun _ => rfl⟩
         | exact ⟨fun hmv => absurd rfl hmv, fun herr => absurd herr (by decide)⟩)
  · intro cfg s folder f s' f' o h
    simp only [LessonUtils.processItem] at h
    repeat' split at h
    all_goals
      first
      | exact Except.noConfusion h
      | (injection h with h
         injection h with h1 h
         injection h with h2 h3
         subst h1
         subst h2
         subst h3
         first
         | exact ⟨fun _ => rfl, fun _ => rfl⟩
         | exact ⟨fun hmv => absurd rfl hmv, fun herr => absurd herr (by decide)⟩)

/-- C4 witness: on the concrete store whose copy request is rejected the
item errors and the catalog row `rC4` comes back unchanged. -/
theorem claim_C4_witness :
    Script.processFile cfgEx false sC4 rC4 = .ok (sC4, rC4, .errored) ∧
    rC4 = rC4 :=
  ⟨rfl, (claim_C4_catalog_untouched_on_failure.1 cfgEx sC4 rC4 sC4 rC4
    .errored rfl).2 rfl⟩

/-- A row whose metadata key already equals its target is skipped as a
no-op before any store call, leaving store and row unchanged. -/
theorem processFile_stable (cfg : Script.Config) (s : S3State)
    (r : Script.FileRow) (h : Script.rowStable r = true) :
    Script.processFile cfg false s r = .ok (s, r, .skippedEqual) := by
  rcases hpk : r.providerKey with _ | k
  · simp only [Script.rowStable, hpk] at h
    exact Bool.noConfusion h
  · simp only [Script.rowStable, hpk] at h
    by_cases hk : k = ""
    · rw [if_pos hk] at h
      exact Bool.noConfusion h
    · rw [if_neg hk] at h
      have htgt : Script.targetKeyGiven r k = k := beq_iff_eq.mp h
      have hres : Script.resolveCurrentKey s r = .ok k := by
        simp [Script.resolveCurrentKey, hpk, hk]
      simp [Script.processFile, hres, htgt]

/-- A pass over rows that are all stable is the identity on the store
and the rows, counting every row as a skip and none as a move. -/
theorem runPass_stable (cfg : Script.Config) (s : S3State) :
    ∀ rows : List Script.FileRow, rows.all Script.rowStable = true →
      Script.runPass cfg false s rows =
        .ok (s, rows, ⟨rows.length, 0, rows.length, 0⟩)
  | [], _ => rfl
  | r :: rest, h => by
    rw [List.all_cons, Bool.and_eq_true] at h
    have h1 := processFile_stable cfg s r h.1
    have h2 := runPass_stable cfg s rest h.2
    simp only [Script.runPass, h1, h2]
    rfl

/-- C5 amended: the second execute run performs zero moves provided
every row coming out of the first run is stable (its provider-metadata
key equals its recomputed target key) — which holds for every row the
first run actually moved, since the move writes the target key into the
metadata and target recomputation from a key containing `/` reuses that
key's file name.  (Without the stability proviso the claim fails: see the
counterexample, where a row whose source was unresolvable on the first
run is moved by the second run after the bucket search starts matching
its hash.) -/
theorem claim_C5_amended_idempotent_when_stable :
    ∀ (cfg : Script.Config) (s : S3State) (rows : List Script.FileRow)
      (s1 : S3State) (rows1 : List Script.FileRow) (c1 : Script.Counters),
      Script.runPass cfg false s rows = .ok (s1, rows1, c1) →
      rows1.all Script.rowStable = true →
      Script.runPass cfg false s1 rows1 =
        .ok (s1, rows1, ⟨rows1.length, 0, rows1.length, 0⟩) := by
  intro cfg s rows s1 rows1 c1 _ h
  exact runPass_stable cfg s1 rows1 h

/-- C5 witness: a one-row catalog whose row is already in place — the
(second) run reports one processed, one skipped, zero moved. -/
theorem claim_C5_witness :
    Script.runPass cfgEx false (mkStore []) [rW5] =
      .ok (mkStore [], [rW5], ⟨1, 0, 1, 0⟩) :=
  claim_C5_amended_idempotent_when_stable cfgEx (mkStore []) [rW5]
    (mkStore []) [rW5] ⟨1, 0, 1, 0⟩ rfl (by decide)

/-- C5 counterexample: a fixed two-row catalog on which the first execute
run finishes with zero errors (one move, one skip), yet the second
execute run moves one more file: row A's object was unresolvable on run
one, but run two's bucket search finds row B's newly created key
`ab/m/l/x.pdf` (which contains A's hash `ab`), so A "moves" that object
to `ca/ma/la/x.pdf`.  Running the relocation pass twice is therefore not
idempotent for every catalog state. -/
theorem claim_C5_counterexample_second_run_moves :
    passObs (Script.runPass cfgEx false s0Ex [rA, rB]) =
      some (["ab/m/l/x.pdf"], rows1Ex, ⟨2, 1, 1, 0⟩) ∧
    passObs (Script.runPass cfgEx false (mkStore ["ab/m/l/x.pdf"]) rows1Ex) =
      some (["ca/ma/la/x.pdf"], rows2Ex, ⟨2, 1, 1, 0⟩) := by
  refine ⟨rfl, rfl⟩

/-- C10: executing without `--clean` runs the link-table hygiene pass
automatically after the relocation pass whenever at least one file
moved, and a dry run never mutates the link tables (with or without
`--clean`). -/
theorem claim_C10_auto_hygiene :
    (∀ (cfg : Script.Config) (s : S3State) (rows : List Script.FileRow)
        (links : List Script.LinkRow) (fileIds lessonIds : List Nat)
        (res : Script.MainResult),
      Script.mainRun cfg false false s rows links fileIds lessonIds = .ok res →
      0 < res.counters.moved →
      res.links = Script.cleanFilesRelatedTables links fileIds lessonIds) ∧
    (∀ (cfg : Script.Config) (cleanTables : Bool) (s : S3State)
        (rows : List Script.FileRow) (links : List Script.LinkRow)
        (fileIds lessonIds : List Nat) (res : Script.MainResult),
      Script.mainRun cfg true cleanTables s rows links fileIds lessonIds = .ok res →
      res.links = links) := by
  constructor
  · intro cfg s rows links fileIds lessonIds res h hm
    simp only [Script.mainRun] at h
    cases hrp : Script.runPass cfg false s rows with
    | error e =>
      rw [hrp] at h
      exact Except.noConfusion h
    | ok t =>
      obtain ⟨s1, rows1, c⟩ := t
      rw [hrp] at h
      injection h with h
      subst h
      have hm' : 0 < c.moved := hm
      simp [hm']
  · intro cfg cleanTables s rows links fileIds lessonIds res h
    simp only [Script.mainRun] at h
    cases hrp : Script.runPass cfg true s rows with
    | error e =>
      rw [hrp] at h
      exact Except.noConfusion h
    | ok t =>
      obtain ⟨s1, rows1, c⟩ := t
      rw [hrp] at h
      injection h with h
      subst h
      simp

/-- C10 witness: the concrete one-move execute run without `--clean`
ends with the link table cleaned (the orphaned row of `linksW` removed). -/
theorem claim_C10_witness :
    Script.mainRun cfgEx false false (mkStore ["old.pdf"]) [rC10] linksW [6] [1]
      = .ok resW ∧
    resW.links = Script.cleanFilesRelatedTables linksW [6] [1] :=
  ⟨rfl, claim_C10_auto_hygiene.1 cfgEx (mkStore ["old.pdf"]) [rC10] linksW
    [6] [1] resW rfl (by decide)⟩

/-- C7 amended: the in-app reorganizer, the batch script and the S3
provider all map the lineage
`("Intro To Robotics!", "Module 1", "Lesson  One")` to the folder
`intro-to-robotics/module-1/lesson-one` (lowercased, disallowed
characters stripped, whitespace runs collapsed to single hyphens), while
the file-lifecycles hook's sanitizer yields
`Intro_To_Robotics/Module_1/Lesson_One` + extension instead. -/
theorem claim_C7_amended_scenario :
    LessonUtils.lessonTargetFolder (some "Intro To Robotics!") none
        (some "Module 1") (some "Lesson  One") =
      "intro-to-robotics/module-1/lesson-one" ∧
    Script.targetFolder rowC7 = "intro-to-robotics/module-1/lesson-one" ∧
    Provider.getFolderPathFromTitles (some "Intro To Robotics!") none
        (some "Module 1") (some "Lesson  One") =
      "intro-to-robotics/module-1/lesson-one" ∧
    Lifecycles.newKeyFor (some "Intro To Robotics!") none (some "Module 1")
        (some "Lesson  One") ".pdf" =
      "Intro_To_Robotics/Module_1/Lesson_One.pdf" := by
  refine ⟨by decide, by decide, by decide, by decide⟩

end StrapiRepo
